import Mathlib

/-!
Shallow embedding of the `/analyze/` statistics endpoint (`analyze_data` in
`main.py`) of the Exploratory-Data-Analysis repository, together with the
table model it operates on.

Modelling conventions:
* A pandas `DataFrame` is a list of named columns plus a row count; each
  column carries its dtype and its list of cells.
* A cell is `null` (pandas `None`/`NaN`), a rational number (exact model of
  the numeric data; float rounding is out of scope), or a string.
* pandas statistics that produce `NaN` on empty input (`mean`, `median`,
  `std`, `min`, `max` of an empty / all-null column) are modelled as `none`.
* `std` is the square root of the sample variance; since the square root of
  a rational is in general irrational, the report stores the sample
  variance `stdSq` (the square of the `std` value in the code), which carries the same
  information for the properties under study.
* `Series.value_counts` groups keys in order of first appearance (pandas
  GH39009) and then sorts by count descending with a stable order for ties
  (double-reversed stable argsort), i.e. ties stay in first-seen order.
* `np.histogram(data, bins=10)`: edges are the 11 equally spaced points
  from `lo` to `hi` where `(lo, hi)` is `(min, max)` of the data, expanded
  to `(min - 1/2, max + 1/2)` when `min = max`, and `(0, 1)` for empty
  data; value `x` is counted in bin `min ⌊(x - lo)·10/(hi - lo)⌋ 9`, which
  in exact arithmetic is the bin `[edge i, edge (i+1))`, the last bin
  closed.
-/

namespace EDA

/-- A cell of a column: missing (`None`/`NaN`), a number, or a string. -/
inductive Cell where
  | null : Cell
  | num : ℚ → Cell
  | str : String → Cell
deriving DecidableEq

/-- The declared storage dtype of a column, as produced by
`pd.read_sql_query`. -/
inductive Dtype where
  | int64 : Dtype
  | float64 : Dtype
  | object : Dtype
  | datetime64 : Dtype
deriving DecidableEq

/-- `df.select_dtypes(include=[np.number])` keeps exactly the integer and
floating-point dtypes. -/
def Dtype.isNumeric : Dtype → Bool
  | .int64 => true
  | .float64 => true
  | _ => false

/-- A named column: its dtype and its cells. -/
structure Col where
  name : String
  dtype : Dtype
  cells : List Cell
deriving DecidableEq

/-- A rectangular table: ordered columns plus the row count. -/
structure DataFrame where
  cols : List Col
  nrows : ℕ
deriving DecidableEq

/-- Rectangularity: every column has exactly `nrows` cells. -/
def DataFrame.wf (df : DataFrame) : Prop :=
  ∀ c ∈ df.cols, c.cells.length = df.nrows

/-- A numeric-dtyped column holds only nulls and numbers (as is the case
for every frame produced by `pd.read_sql_query`). -/
def Col.typed (c : Col) : Prop :=
  c.dtype.isNumeric = true → ∀ x ∈ c.cells, x = Cell.null ∨ ∃ q, x = Cell.num q

/-- `pd.isnull` on one cell. -/
def Cell.isNull : Cell → Bool
  | .null => true
  | _ => false

/-- `df.isnull().sum()` for one column. -/
def missingCount (c : Col) : ℕ := c.cells.countP Cell.isNull

/-- Number of non-null cells of a column. -/
def nonNullCount (c : Col) : ℕ := c.cells.countP (fun x => !x.isNull)

/-- The numeric content of a cell, if any. -/
def numCell : Cell → Option ℚ
  | .num q => some q
  | _ => none

/-- The string content of a cell, if any. -/
def strCell : Cell → Option String
  | .str s => some s
  | _ => none

/-- `df[col].dropna()` for a numeric column: its non-null numeric values in
row order. -/
def dropna (c : Col) : List ℚ := c.cells.filterMap numCell

/-- `df[col].dropna()` for a categorical column: its non-null string values
in row order. -/
def dropnaStr (c : Col) : List String := c.cells.filterMap strCell

/-- `Series.mean()`: arithmetic mean of the non-null values, `NaN` (here
`none`) when there are none. -/
def mean (l : List ℚ) : Option ℚ :=
  if l.length = 0 then none else some (l.sum / l.length)

/-- `Series.median()`: middle element of the sorted values for odd length,
average of the two middle elements for even length, `NaN` when empty. -/
def median (l : List ℚ) : Option ℚ :=
  if l.length = 0 then none
  else
    let s := l.insertionSort (· ≤ ·)
    if l.length % 2 = 1 then s[l.length / 2]?
    else do
      let a ← s[l.length / 2 - 1]?
      let b ← s[l.length / 2]?
      pure ((a + b) / 2)

/-- The square of `Series.std()`: the sample variance, dividing by `N - 1`;
`NaN` when fewer than two values (pandas yields `0/0 = NaN` for one). -/
def sampleVar (l : List ℚ) : Option ℚ :=
  if l.length < 2 then none
  else
    let m := l.sum / l.length
    some ((l.map (fun x => (x - m) ^ 2)).sum / ((l.length : ℚ) - 1))

/-- `Series.min()` over the non-null values, `NaN` when empty. -/
def listMin (l : List ℚ) : Option ℚ :=
  match l with
  | [] => none
  | x :: xs => some (xs.foldl min x)

/-- `Series.max()` over the non-null values, `NaN` when empty. -/
def listMax (l : List ℚ) : Option ℚ :=
  match l with
  | [] => none
  | x :: xs => some (xs.foldl max x)

/-- The 11 bin edges of `np.histogram(·, bins=10)` for range `(lo, hi)`:
equally spaced from `lo` to `hi`. -/
def histEdges (lo hi : ℚ) : List ℚ :=
  (List.range 11).map (fun (i : ℕ) => lo + (i : ℚ) * ((hi - lo) / 10))

/-- The bin a value falls into: linear index clamped to the last bin, so
the last bin is closed on the right. -/
def binIdx (lo hi x : ℚ) : ℕ :=
  min (Int.toNat ⌊(x - lo) * 10 / (hi - lo)⌋) 9

/-- The 10 bin counts of `np.histogram(·, bins=10)` for range `(lo, hi)`. -/
def histCounts (lo hi : ℚ) (l : List ℚ) : List ℕ :=
  (List.range 10).map (fun i => l.countP (fun x => binIdx lo hi x == i))

/-- The histogram range chosen by `np.histogram`: `(min, max)` of the data,
expanded by `1/2` on both sides when `min = max`, and `(0, 1)` for empty
data. -/
def histRange (l : List ℚ) : ℚ × ℚ :=
  match l with
  | [] => (0, 1)
  | x :: xs =>
    let lo := xs.foldl min x
    let hi := xs.foldl max x
    if lo = hi then (lo - 1 / 2, hi + 1 / 2) else (lo, hi)

/-- `np.histogram(l, bins=10)`: the pair (counts, edges). -/
def histogram (l : List ℚ) : List ℕ × List ℚ :=
  (histCounts (histRange l).1 (histRange l).2 l,
   histEdges (histRange l).1 (histRange l).2)

/-- The per-column entry of `numeric_stats`. -/
structure NumericStats where
  mean : Option ℚ
  median : Option ℚ
  stdSq : Option ℚ
  min : Option ℚ
  max : Option ℚ
  histogram_bins : List ℚ
  histogram_values : List ℕ
deriving DecidableEq

/-- The numeric-column branch of `analyze_data`. -/
def analyzeNumericCol (c : Col) : NumericStats :=
  let l := dropna c
  { mean := mean l
    median := median l
    stdSq := sampleVar l
    min := listMin l
    max := listMax l
    histogram_bins := (histogram l).2
    histogram_values := (histogram l).1 }

/-- Distinct values of a list in order of first appearance (the key order
of pandas `value_counts`, GH39009). -/
def firstSeen (l : List String) : List String :=
  l.foldl (fun acc x => if x ∈ acc then acc else acc ++ [x]) []

/-- The descending-count ordering used by `value_counts(sort=True)`. -/
def byCountDesc (l : List String) (a b : String) : Prop :=
  l.count b ≤ l.count a

instance byCountDescDecidable (l : List String) : DecidableRel (byCountDesc l) :=
  fun a b => inferInstanceAs (Decidable (l.count b ≤ l.count a))

instance byCountDescTotal (l : List String) : IsTotal String (byCountDesc l) :=
  ⟨fun a b => le_total (l.count b) (l.count a)⟩

instance byCountDescTrans (l : List String) : IsTrans String (byCountDesc l) :=
  ⟨fun _ _ _ h1 h2 => le_trans h2 h1⟩

/-- The distinct values ranked by descending count, ties kept in
first-appearance order (stable sort). -/
def rankedValues (l : List String) : List String :=
  (firstSeen l).insertionSort (byCountDesc l)

/-- `Series.value_counts().head(10)` as an ordered key/count list. -/
def value_counts (l : List String) : List (String × ℕ) :=
  ((rankedValues l).take 10).map (fun k => (k, l.count k))

/-- The per-column entry of `categorical_stats`. -/
structure CategoricalStats where
  value_counts : List (String × ℕ)
  unique_values : ℕ
  labels : List String
  values : List ℕ
deriving DecidableEq

/-- The categorical-column branch of `analyze_data`. -/
def analyzeCategoricalCol (c : Col) : CategoricalStats :=
  let l := dropnaStr c
  let vc := value_counts l
  { value_counts := vc
    unique_values := (firstSeen l).length
    labels := vc.map Prod.fst
    values := vc.map Prod.snd }

/-- The `basic_info` block of the report. -/
structure BasicInfo where
  total_rows : ℕ
  total_columns : ℕ
  numeric_columns : ℕ
  categorical_columns : ℕ
  columns : List String
deriving DecidableEq

/-- The full summary report returned by `analyze_data`. -/
structure SummaryReport where
  basic_info : BasicInfo
  column_types : List (String × Dtype)
  missing_values : List (String × ℕ)
  numeric_stats : List (String × NumericStats)
  categorical_stats : List (String × CategoricalStats)
deriving DecidableEq

/-- `df.select_dtypes(include=[np.number]).columns`. -/
def numericCols (df : DataFrame) : List Col :=
  df.cols.filter (fun c => c.dtype.isNumeric)

/-- `df.select_dtypes(exclude=[np.number]).columns`. -/
def categoricalCols (df : DataFrame) : List Col :=
  df.cols.filter (fun c => !c.dtype.isNumeric)

/-- The statistics computation of `analyze_data`, given the loaded frame.
The `if len(...) > 0` guards of the source are immaterial here: mapping
over an empty column list already yields an empty mapping. -/
def analyze (df : DataFrame) : SummaryReport :=
  { basic_info :=
      { total_rows := df.nrows
        total_columns := df.cols.length
        numeric_columns := (numericCols df).length
        categorical_columns := (categoricalCols df).length
        columns := df.cols.map Col.name }
    column_types := df.cols.map (fun c => (c.name, c.dtype))
    missing_values := df.cols.map (fun c => (c.name, missingCount c))
    numeric_stats := (numericCols df).map (fun c => (c.name, analyzeNumericCol c))
    categorical_stats := (categoricalCols df).map (fun c => (c.name, analyzeCategoricalCol c)) }

/-- Outcome of `pd.read_sql_query` against the record store. -/
inductive QueryResult where
  | ok : DataFrame → QueryResult
  | err : String → QueryResult

/-- The `/analyze/` endpoint: on a failed store query it raises HTTP 500
`"Database query failed"` (named `ComputationError` in the spec); otherwise it
returns the full report. -/
def analyze_data : QueryResult → Except String SummaryReport
  | .err _ => .error "Database query failed"
  | .ok df => .ok (analyze df)

/-- A non-numeric column holds only nulls and strings. -/
def Col.typedStr (c : Col) : Prop :=
  c.dtype.isNumeric = false → ∀ x ∈ c.cells, x = Cell.null ∨ ∃ s, x = Cell.str s

/-- The example column of the spec: `age = [20, 30, 30, 40, null]`. -/
def ageCol : Col :=
  ⟨"age", Dtype.float64, [Cell.num 20, Cell.num 30, Cell.num 30, Cell.num 40, Cell.null]⟩

/-- The example column of the spec: `dept = ["A","B","A","A","C"]`. -/
def deptCol : Col :=
  ⟨"dept", Dtype.object,
   [Cell.str "A", Cell.str "B", Cell.str "A", Cell.str "A", Cell.str "C"]⟩

/-- A five-row example frame holding both example columns. -/
def exampleFrame : DataFrame := ⟨[ageCol, deptCol], 5⟩

/-- A numeric column holding the single value 5. -/
def constCol : Col := ⟨"salary", Dtype.float64, [Cell.num 5]⟩

/-- A one-row frame holding only `constCol`. -/
def constFrame : DataFrame := ⟨[constCol], 1⟩

/-- A numeric column whose cells are all null. -/
def allNullCol : Col := ⟨"salary", Dtype.float64, [Cell.null, Cell.null]⟩

/-- A two-row frame holding only `allNullCol`. -/
def allNullFrame : DataFrame := ⟨[allNullCol], 2⟩

/-- A zero-row frame with one (string) column. -/
def zeroRowFrame : DataFrame := ⟨[⟨"name", Dtype.object, []⟩], 0⟩

/-- A zero-row frame with one numeric and one string column. -/
def zeroRowFrame2 : DataFrame :=
  ⟨[⟨"age", Dtype.int64, []⟩, ⟨"name", Dtype.object, []⟩], 0⟩

/-- The `numeric_stats` entry produced for a numeric column with no
non-null values: every statistic is `NaN` (`none`), the histogram is ten
zero counts over the default `(0, 1)` range. -/
def emptyNumericStats : NumericStats :=
  ⟨none, none, none, none, none, histEdges 0 1, List.replicate 10 0⟩

/-- The `categorical_stats` entry produced for a column with no non-null
values. -/
def emptyCategoricalStats : CategoricalStats := ⟨[], 0, [], []⟩

/-- A column of numeric-looking strings: stored as strings, so its dtype is
`object`. -/
def strDigitsCol : Col := ⟨"score", Dtype.object, [Cell.str "123"]⟩

/-- A one-row frame holding only `strDigitsCol`. -/
def strDigitsFrame : DataFrame := ⟨[strDigitsCol], 1⟩

/-! ### Helper lemmas -/

theorem countP_add_countP_not {α : Type} (p : α → Bool) (l : List α) :
    l.countP p + l.countP (fun x => !p x) = l.length := by
  induction l with
  | nil => rfl
  | cons a t ih =>
    simp only [List.countP_cons, List.length_cons]
    cases h : p a <;> simp [h] <;> omega

theorem filter_length_add_filter_not_length {α : Type} (p : α → Bool) (l : List α) :
    (l.filter p).length + (l.filter (fun x => !p x)).length = l.length := by
  rw [← List.countP_eq_length_filter, ← List.countP_eq_length_filter]
  exact countP_add_countP_not p l

theorem filterMap_numCell_nil (l : List Cell) (h : ∀ x ∈ l, x = Cell.null) :
    l.filterMap numCell = [] := by
  induction l with
  | nil => rfl
  | cons a t ih =>
    have ha := h a (List.mem_cons_self a t)
    subst ha
    simp only [List.filterMap_cons, numCell]
    exact ih (fun x hx => h x (List.mem_cons_of_mem _ hx))

theorem analyzeNumericCol_empty (c : Col) (h : dropna c = []) :
    analyzeNumericCol c = emptyNumericStats := by
  simp only [analyzeNumericCol, h]
  rfl

theorem analyzeCategoricalCol_empty (c : Col) (h : dropnaStr c = []) :
    analyzeCategoricalCol c = emptyCategoricalStats := by
  simp only [analyzeCategoricalCol, h]
  rfl

/-! ### Claims -/

/-- C5: for every (rectangular) table and every column, the
`missing_values` entry of the report plus the number of non-null cells
equals the total row count. -/
theorem C5_missing_plus_nonnull (df : DataFrame) (c : Col) (hwf : df.wf)
    (hc : c ∈ df.cols) :
    (c.name, missingCount c) ∈ (analyze df).missing_values ∧
      missingCount c + nonNullCount c = df.nrows := by
  constructor
  · simp only [analyze]
    exact List.mem_map_of_mem _ hc
  · have h := countP_add_countP_not Cell.isNull c.cells
    rw [missingCount, nonNullCount, h, hwf c hc]

/-- Witness for C5 at the example frame and `age` column. -/
theorem C5_missing_plus_nonnull_witness :
    (∀ c ∈ exampleFrame.cols, c.cells.length = exampleFrame.nrows) ∧
      ageCol ∈ exampleFrame.cols ∧
      ((ageCol.name, missingCount ageCol) ∈ (analyze exampleFrame).missing_values ∧
        missingCount ageCol + nonNullCount ageCol = exampleFrame.nrows) :=
  ⟨by decide, by decide,
   C5_missing_plus_nonnull exampleFrame ageCol (by simp only [DataFrame.wf]; decide)
     (by decide)⟩

/-- C6: a column is classified numeric iff its declared dtype is integer
or floating-point, categorical otherwise; the two classes are disjoint and
their counts add up to the total column count; a column of numeric-looking
strings (dtype `object`) is categorical. -/
theorem C6_classification (df : DataFrame) (c : Col) (hc : c ∈ df.cols) :
    (c ∈ numericCols df ↔ (c.dtype = Dtype.int64 ∨ c.dtype = Dtype.float64)) ∧
      (c ∈ categoricalCols df ↔ ¬(c.dtype = Dtype.int64 ∨ c.dtype = Dtype.float64)) ∧
      ¬(c ∈ numericCols df ∧ c ∈ categoricalCols df) ∧
      (analyze df).basic_info.numeric_columns + (analyze df).basic_info.categorical_columns
        = (analyze df).basic_info.total_columns ∧
      (strDigitsCol ∈ categoricalCols strDigitsFrame ∧
        (analyze strDigitsFrame).numeric_stats = []) := by
  have hnum : c.dtype.isNumeric = true ↔ (c.dtype = Dtype.int64 ∨ c.dtype = Dtype.float64) := by
    cases c.dtype <;> simp [Dtype.isNumeric]
  refine ⟨?_, ?_, ?_, ?_, by decide, by decide⟩
  · rw [numericCols, List.mem_filter]
    simp [hc, hnum]
  · rw [categoricalCols, List.mem_filter]
    simp only [hc, true_and]
    cases c.dtype <;> simp [Dtype.isNumeric]
  · rw [numericCols, categoricalCols, List.mem_filter, List.mem_filter]
    rintro ⟨⟨-, h1⟩, -, h2⟩
    rw [h1] at h2
    exact absurd h2 (by simp)
  · simp only [analyze, numericCols, categoricalCols]
    exact filter_length_add_filter_not_length _ df.cols

/-- Witness for C6 at the example frame and `age` column. -/
theorem C6_classification_witness :
    ageCol ∈ exampleFrame.cols ∧
      ((ageCol ∈ numericCols exampleFrame ↔
          (ageCol.dtype = Dtype.int64 ∨ ageCol.dtype = Dtype.float64)) ∧
        (ageCol ∈ categoricalCols exampleFrame ↔
          ¬(ageCol.dtype = Dtype.int64 ∨ ageCol.dtype = Dtype.float64)) ∧
        ¬(ageCol ∈ numericCols exampleFrame ∧ ageCol ∈ categoricalCols exampleFrame) ∧
        (analyze exampleFrame).basic_info.numeric_columns +
            (analyze exampleFrame).basic_info.categorical_columns
          = (analyze exampleFrame).basic_info.total_columns ∧
        (strDigitsCol ∈ categoricalCols strDigitsFrame ∧
          (analyze strDigitsFrame).numeric_stats = [])) :=
  ⟨by decide, C6_classification exampleFrame ageCol (by decide)⟩

/-- C9: the endpoint fails (with the HTTP 500 `"Database query failed"`
error) exactly on a failed store query, and on success returns the
complete report with no error; there are no partial results. -/
theorem C9_error_contract :
    (∀ m, analyze_data (QueryResult.err m) = Except.error "Database query failed") ∧
      (∀ df, analyze_data (QueryResult.ok df) = Except.ok (analyze df)) :=
  ⟨fun _ => rfl, fun _ => rfl⟩

/-- C10: a numeric column whose cells are all null still gets a
`numeric_stats` entry: ten zero bin counts over the default `(0, 1)` bin
range, and `NaN` (`none`) for mean, median, std, min and max. -/
theorem C10_all_null_numeric (df : DataFrame) (c : Col) (hc : c ∈ df.cols)
    (hnum : c.dtype.isNumeric = true) (hnull : ∀ x ∈ c.cells, x = Cell.null) :
    (c.name, analyzeNumericCol c) ∈ (analyze df).numeric_stats ∧
      (analyzeNumericCol c).histogram_values = List.replicate 10 0 ∧
      (analyzeNumericCol c).histogram_bins = histEdges 0 1 ∧
      (analyzeNumericCol c).mean = none ∧
      (analyzeNumericCol c).median = none ∧
      (analyzeNumericCol c).stdSq = none ∧
      (analyzeNumericCol c).min = none ∧
      (analyzeNumericCol c).max = none := by
  have heq : analyzeNumericCol c = emptyNumericStats :=
    analyzeNumericCol_empty c (filterMap_numCell_nil _ hnull)
  refine ⟨?_, by rw [heq]; rfl, by rw [heq]; rfl, by rw [heq]; rfl, by rw [heq]; rfl,
    by rw [heq]; rfl, by rw [heq]; rfl, by rw [heq]; rfl⟩
  simp only [analyze]
  exact List.mem_map_of_mem _ (List.mem_filter.mpr ⟨hc, hnum⟩)

/-- Witness for C10 at the all-null numeric column. -/
theorem C10_all_null_numeric_witness :
    allNullCol ∈ allNullFrame.cols ∧ allNullCol.dtype.isNumeric = true ∧
      (∀ x ∈ allNullCol.cells, x = Cell.null) ∧
      ((allNullCol.name, analyzeNumericCol allNullCol) ∈ (analyze allNullFrame).numeric_stats ∧
        (analyzeNumericCol allNullCol).histogram_values = List.replicate 10 0 ∧
        (analyzeNumericCol allNullCol).histogram_bins = histEdges 0 1 ∧
        (analyzeNumericCol allNullCol).mean = none ∧
        (analyzeNumericCol allNullCol).median = none ∧
        (analyzeNumericCol allNullCol).stdSq = none ∧
        (analyzeNumericCol allNullCol).min = none ∧
        (analyzeNumericCol allNullCol).max = none) :=
  ⟨by decide, by decide, by decide,
   C10_all_null_numeric allNullFrame allNullCol (by decide) (by decide) (by decide)⟩

/-- C8 counterexample: the zero-row frame with one string column has
`total_rows = 0` but its `categorical_stats` is not the empty mapping —
the `if len(categorical_columns) > 0` guard in the source tests the number
of columns, not rows, so every column still gets a (vacuous) entry. -/
theorem C8_zero_rows_cex :
    (analyze zeroRowFrame).basic_info.total_rows = 0 ∧
      (analyze zeroRowFrame).categorical_stats ≠ [] := by
  exact ⟨rfl, by decide⟩

/-- C8 amended: a zero-row table reports `total_rows = 0`, and its
`numeric_stats` / `categorical_stats` have one entry per numeric /
non-numeric column, each entry carrying the empty statistics (`NaN`
sentinels, zero histogram counts, empty label lists); the mappings are
empty only when no column of the class exists. -/
theorem C8_zero_rows_amended (df : DataFrame) (hwf : df.wf) (h0 : df.nrows = 0) :
    (analyze df).basic_info.total_rows = 0 ∧
      (analyze df).numeric_stats
        = (numericCols df).map (fun c => (c.name, emptyNumericStats)) ∧
      (analyze df).categorical_stats
        = (categoricalCols df).map (fun c => (c.name, emptyCategoricalStats)) := by
  have hcells : ∀ c ∈ df.cols, c.cells = [] := by
    intro c hcmem
    have h := hwf c hcmem
    rw [h0] at h
    exact List.eq_nil_of_length_eq_zero h
  refine ⟨by simp [analyze, h0], ?_, ?_⟩
  · simp only [analyze]
    apply List.map_congr_left
    intro c hcmem
    have hd : dropna c = [] := by
      rw [dropna, hcells c (List.mem_of_mem_filter hcmem)]
      rfl
    rw [analyzeNumericCol_empty c hd]
  · simp only [analyze]
    apply List.map_congr_left
    intro c hcmem
    have hd : dropnaStr c = [] := by
      rw [dropnaStr, hcells c (List.mem_of_mem_filter hcmem)]
      rfl
    rw [analyzeCategoricalCol_empty c hd]

/-- Witness for the amended C8 at a zero-row frame with one numeric and
one string column. -/
theorem C8_zero_rows_amended_witness :
    (∀ c ∈ zeroRowFrame2.cols, c.cells.length = zeroRowFrame2.nrows) ∧
      zeroRowFrame2.nrows = 0 ∧
      ((analyze zeroRowFrame2).basic_info.total_rows = 0 ∧
        (analyze zeroRowFrame2).numeric_stats
          = (numericCols zeroRowFrame2).map (fun c => (c.name, emptyNumericStats)) ∧
        (analyze zeroRowFrame2).categorical_stats
          = (categoricalCols zeroRowFrame2).map (fun c => (c.name, emptyCategoricalStats))) :=
  ⟨by decide, rfl,
   C8_zero_rows_amended zeroRowFrame2 (by simp only [DataFrame.wf]; decide) rfl⟩

theorem foldl_min_spec (x : ℚ) (xs : List ℚ) :
    xs.foldl min x ∈ x :: xs ∧ ∀ y ∈ x :: xs, xs.foldl min x ≤ y := by
  induction xs generalizing x with
  | nil =>
    refine ⟨List.mem_cons_self x [], ?_⟩
    intro y hy
    rw [List.mem_singleton] at hy
    simp [hy]
  | cons a t ih =>
    obtain ⟨hmem, hle⟩ := ih (min x a)
    rw [List.foldl_cons]
    have hbase : t.foldl min (min x a) ≤ min x a :=
      hle (min x a) (List.mem_cons_self _ _)
    constructor
    · rcases List.mem_cons.mp hmem with h | h
      · rcases min_cases x a with ⟨he, -⟩ | ⟨he, -⟩
        · exact List.mem_cons.mpr (Or.inl (h.trans he))
        · exact List.mem_cons.mpr (Or.inr (List.mem_cons.mpr (Or.inl (h.trans he))))
      · exact List.mem_cons.mpr (Or.inr (List.mem_cons.mpr (Or.inr h)))
    · intro y hy
      rcases List.mem_cons.mp hy with h | hy2
      · rw [h]
        exact le_trans hbase (min_le_left x a)
      · rcases List.mem_cons.mp hy2 with h | hy3
        · rw [h]
          exact le_trans hbase (min_le_right x a)
        · exact hle y (List.mem_cons_of_mem _ hy3)

theorem foldl_max_spec (x : ℚ) (xs : List ℚ) :
    xs.foldl max x ∈ x :: xs ∧ ∀ y ∈ x :: xs, y ≤ xs.foldl max x := by
  induction xs generalizing x with
  | nil =>
    refine ⟨List.mem_cons_self x [], ?_⟩
    intro y hy
    rw [List.mem_singleton] at hy
    simp [hy]
  | cons a t ih =>
    obtain ⟨hmem, hle⟩ := ih (max x a)
    rw [List.foldl_cons]
    have hbase : max x a ≤ t.foldl max (max x a) :=
      hle (max x a) (List.mem_cons_self _ _)
    constructor
    · rcases List.mem_cons.mp hmem with h | h
      · rcases max_cases x a with ⟨he, -⟩ | ⟨he, -⟩
        · exact List.mem_cons.mpr (Or.inl (h.trans he))
        · exact List.mem_cons.mpr (Or.inr (List.mem_cons.mpr (Or.inl (h.trans he))))
      · exact List.mem_cons.mpr (Or.inr (List.mem_cons.mpr (Or.inr h)))
    · intro y hy
      rcases List.mem_cons.mp hy with h | hy2
      · rw [h]
        exact le_trans (le_max_left x a) hbase
      · rcases List.mem_cons.mp hy2 with h | hy3
        · rw [h]
          exact le_trans (le_max_right x a) hbase
        · exact hle y (List.mem_cons_of_mem _ hy3)

theorem listMin_spec (l : List ℚ) (hne : l ≠ []) :
    ∃ m, listMin l = some m ∧ m ∈ l ∧ ∀ y ∈ l, m ≤ y := by
  cases l with
  | nil => exact absurd rfl hne
  | cons x xs =>
    obtain ⟨hmem, hle⟩ := foldl_min_spec x xs
    exact ⟨xs.foldl min x, rfl, hmem, hle⟩

theorem listMax_spec (l : List ℚ) (hne : l ≠ []) :
    ∃ M, listMax l = some M ∧ M ∈ l ∧ ∀ y ∈ l, y ≤ M := by
  cases l with
  | nil => exact absurd rfl hne
  | cons x xs =>
    obtain ⟨hmem, hle⟩ := foldl_max_spec x xs
    exact ⟨xs.foldl max x, rfl, hmem, hle⟩

/-- `median` can be read off any sorted rearrangement of the data. -/
theorem median_of_sorted_perm (l s : List ℚ) (hp : s.Perm l) (hs : s.Sorted (· ≤ ·)) :
    median l =
      (if l.length % 2 = 1 then s[l.length / 2]?
       else do
         let a ← s[l.length / 2 - 1]?
         let b ← s[l.length / 2]?
         pure ((a + b) / 2)) := by
  have hseq : s = l.insertionSort (fun a b => a ≤ b) :=
    List.eq_of_perm_of_sorted (hp.trans (List.perm_insertionSort _ l).symm) hs
      (List.sorted_insertionSort _ l)
  subst hseq
  simp only [median]
  by_cases h0 : l.length = 0
  · have hl : l = [] := List.length_eq_zero.mp h0
    subst hl
    rfl
  · rw [if_neg h0]

theorem filterMap_strCell_length (l : List Cell)
    (h : ∀ x ∈ l, x = Cell.null ∨ ∃ s, x = Cell.str s) :
    (l.filterMap strCell).length = l.countP (fun x => !x.isNull) := by
  induction l with
  | nil => rfl
  | cons a t ih =>
    have ht := ih (fun x hx => h x (List.mem_cons_of_mem _ hx))
    rcases h a (List.mem_cons_self a t) with ha | ⟨s, ha⟩ <;> subst ha <;>
      simp [List.filterMap_cons, List.countP_cons, strCell, Cell.isNull, ht]

theorem filterMap_numCell_length (l : List Cell)
    (h : ∀ x ∈ l, x = Cell.null ∨ ∃ q, x = Cell.num q) :
    (l.filterMap numCell).length = l.countP (fun x => !x.isNull) := by
  induction l with
  | nil => rfl
  | cons a t ih =>
    have ht := ih (fun x hx => h x (List.mem_cons_of_mem _ hx))
    rcases h a (List.mem_cons_self a t) with ha | ⟨q, ha⟩ <;> subst ha <;>
      simp [List.filterMap_cons, List.countP_cons, numCell, Cell.isNull, ht]

theorem mean_example : mean [20, 30, 30, 40] = some 30 := by
  simp only [mean]
  norm_num [List.sum_cons, List.sum_nil]

theorem median_example : median [20, 30, 30, 40] = some 30 := by
  simp only [median]
  norm_num [List.insertionSort, List.orderedInsert]

theorem sampleVar_example : sampleVar [20, 30, 30, 40] = some (200 / 3) := by
  simp only [sampleVar]
  norm_num [List.sum_cons, List.sum_nil]

theorem listMin_example : listMin [20, 30, 30, 40] = some 20 := by
  simp only [listMin, List.foldl_cons, List.foldl_nil]
  norm_num [min_def]

theorem listMax_example : listMax [20, 30, 30, 40] = some 40 := by
  simp only [listMax, List.foldl_cons, List.foldl_nil]
  norm_num [max_def]

theorem histRange_example : histRange [20, 30, 30, 40] = (20, 40) := by
  simp only [histRange, List.foldl_cons, List.foldl_nil]
  norm_num [min_def, max_def]

theorem binIdx_example_20 : binIdx 20 40 20 = 0 := by
  rw [binIdx, show ((20 : ℚ) - 20) * 10 / (40 - 20) = 0 from by norm_num]
  rw [show ⌊(0 : ℚ)⌋ = 0 from Int.floor_zero]
  rfl

theorem binIdx_example_30 : binIdx 20 40 30 = 5 := by
  rw [binIdx, show ((30 : ℚ) - 20) * 10 / (40 - 20) = 5 from by norm_num]
  rw [show ⌊(5 : ℚ)⌋ = 5 from by norm_num]
  rfl

theorem binIdx_example_40 : binIdx 20 40 40 = 9 := by
  rw [binIdx, show ((40 : ℚ) - 20) * 10 / (40 - 20) = 10 from by norm_num]
  rw [show ⌊(10 : ℚ)⌋ = 10 from by norm_num]
  rfl

theorem histCounts_example :
    histCounts 20 40 [20, 30, 30, 40] = [1, 0, 0, 0, 0, 2, 0, 0, 0, 1] := by
  simp only [histCounts, List.countP_cons, List.countP_nil,
    binIdx_example_20, binIdx_example_30, binIdx_example_40]
  decide

/-- The numeric summary of the example column
`age = [20, 30, 30, 40, null]`. -/
theorem analyzeNumericCol_example :
    analyzeNumericCol ageCol =
      ⟨some 30, some 30, some (200 / 3), some 20, some 40,
        histEdges 20 40, [1, 0, 0, 0, 0, 2, 0, 0, 0, 1]⟩ := by
  have hd : dropna ageCol = [20, 30, 30, 40] := rfl
  simp only [analyzeNumericCol, histogram, hd, histRange_example]
  rw [mean_example, median_example, sampleVar_example, listMin_example,
    listMax_example, histCounts_example]

/-- C2: the numeric summary statistics are the standard definitions over
the non-null values of the column: the mean is the sum divided by the count,
the minimum / maximum are attained lower / upper bounds, the median is
read off the midpoint(s) of any sorted rearrangement, and the reported
(squared) standard deviation divides the squared deviations by `N - 1`;
on the example column `age = [20, 30, 30, 40, null]` this gives
mean 30, median 30, min 20, max 40 and sample variance `200/3`. -/
theorem C2_numeric_summary (df : DataFrame) (c : Col) (hc : c ∈ df.cols)
    (hnum : c.dtype.isNumeric = true) (hne : dropna c ≠ []) :
    (c.name, analyzeNumericCol c) ∈ (analyze df).numeric_stats ∧
      (analyzeNumericCol c).mean = some ((dropna c).sum / (dropna c).length) ∧
      (∃ m, (analyzeNumericCol c).min = some m ∧ m ∈ dropna c ∧ ∀ y ∈ dropna c, m ≤ y) ∧
      (∃ M, (analyzeNumericCol c).max = some M ∧ M ∈ dropna c ∧ ∀ y ∈ dropna c, y ≤ M) ∧
      (∀ s : List ℚ, s.Perm (dropna c) → s.Sorted (· ≤ ·) →
        (analyzeNumericCol c).median =
          (if (dropna c).length % 2 = 1 then s[(dropna c).length / 2]?
           else do
             let a ← s[(dropna c).length / 2 - 1]?
             let b ← s[(dropna c).length / 2]?
             pure ((a + b) / 2))) ∧
      (2 ≤ (dropna c).length →
        (analyzeNumericCol c).stdSq =
          some (((dropna c).map
              (fun x => (x - (dropna c).sum / (dropna c).length) ^ 2)).sum
            / (((dropna c).length : ℚ) - 1))) ∧
      analyzeNumericCol ageCol =
        ⟨some 30, some 30, some (200 / 3), some 20, some 40,
          histEdges 20 40, [1, 0, 0, 0, 0, 2, 0, 0, 0, 1]⟩ := by
  have hlen : (dropna c).length ≠ 0 := fun h => hne (List.length_eq_zero.mp h)
  refine ⟨?_, ?_, ?_, ?_, ?_, ?_, analyzeNumericCol_example⟩
  · simp only [analyze]
    exact List.mem_map_of_mem _ (List.mem_filter.mpr ⟨hc, hnum⟩)
  · show mean (dropna c) = _
    simp only [mean]
    rw [if_neg hlen]
  · exact listMin_spec _ hne
  · exact listMax_spec _ hne
  · intro s hp hs
    exact median_of_sorted_perm (dropna c) s hp hs
  · intro h2
    show sampleVar (dropna c) = _
    simp only [sampleVar]
    rw [if_neg (by omega)]

/-- Witness for C2 at the example frame and its `age` column. -/
theorem C2_numeric_summary_witness :
    ageCol ∈ exampleFrame.cols ∧ ageCol.dtype.isNumeric = true ∧ dropna ageCol ≠ [] ∧
      analyzeNumericCol ageCol =
        ⟨some 30, some 30, some (200 / 3), some 20, some 40,
          histEdges 20 40, [1, 0, 0, 0, 0, 2, 0, 0, 0, 1]⟩ :=
  ⟨by decide, rfl, by decide,
   (C2_numeric_summary exampleFrame ageCol (by decide) rfl (by decide)).2.2.2.2.2.2⟩

theorem firstSeen_aux (l acc : List String) :
    (acc.Nodup → (l.foldl (fun a x => if x ∈ a then a else a ++ [x]) acc).Nodup) ∧
      (∀ a, a ∈ l.foldl (fun a x => if x ∈ a then a else a ++ [x]) acc ↔ a ∈ acc ∨ a ∈ l) := by
  induction l generalizing acc with
  | nil => exact ⟨fun h => h, fun a => by simp⟩
  | cons x t ih =>
    rw [List.foldl_cons]
    obtain ⟨ihn, ihm⟩ := ih (if x ∈ acc then acc else acc ++ [x])
    constructor
    · intro hacc
      apply ihn
      by_cases hx : x ∈ acc
      · simpa [hx] using hacc
      · rw [if_neg hx, ← List.concat_eq_append]
        exact List.Nodup.concat hx hacc
    · intro a
      rw [ihm a]
      by_cases hx : x ∈ acc
      · rw [if_pos hx]
        constructor
        · rintro (h | h)
          · exact Or.inl h
          · exact Or.inr (List.mem_cons_of_mem _ h)
        · rintro (h | h)
          · exact Or.inl h
          · rcases List.mem_cons.mp h with h1 | h1
            · exact Or.inl (h1 ▸ hx)
            · exact Or.inr h1
      · rw [if_neg hx]
        constructor
        · rintro (h | h)
          · rcases List.mem_append.mp h with h1 | h1
            · exact Or.inl h1
            · rw [List.mem_singleton] at h1
              exact Or.inr (h1 ▸ List.mem_cons_self x t)
          · exact Or.inr (List.mem_cons_of_mem _ h)
        · rintro (h | h)
          · exact Or.inl (List.mem_append.mpr (Or.inl h))
          · rcases List.mem_cons.mp h with h1 | h1
            · exact Or.inl (List.mem_append.mpr (Or.inr (List.mem_singleton.mpr h1)))
            · exact Or.inr h1

theorem firstSeen_nodup (l : List String) : (firstSeen l).Nodup :=
  (firstSeen_aux l []).1 List.nodup_nil

theorem mem_firstSeen (l : List String) (a : String) : a ∈ firstSeen l ↔ a ∈ l := by
  rw [firstSeen, (firstSeen_aux l []).2 a]
  simp

/-- The distinct first-seen values exhaust the list: their counts sum to
its length. -/
theorem sum_counts_firstSeen (l : List String) :
    ((firstSeen l).map (fun k => l.count k)).sum = l.length := by
  have hperm : (firstSeen l).Perm l.dedup := by
    rw [List.perm_ext_iff_of_nodup (firstSeen_nodup l) (List.nodup_dedup l)]
    intro a
    rw [mem_firstSeen, List.mem_dedup]
  calc ((firstSeen l).map (fun k => l.count k)).sum
      = (l.dedup.map (fun k => l.count k)).sum := (hperm.map _).sum_eq
    _ = l.length := List.sum_map_count_dedup_eq_length l

/-- C7: the displayed categorical counts are capped at ten values, so they
sum to at most the non-null count, while `unique_values` is the exact
number of distinct non-null values and bounds the number of labels. -/
theorem C7_categorical_caps (df : DataFrame) (c : Col) (hc : c ∈ df.cols)
    (hcat : c.dtype.isNumeric = false) (ht : c.typedStr) :
    (c.name, analyzeCategoricalCol c) ∈ (analyze df).categorical_stats ∧
      ((analyzeCategoricalCol c).value_counts.map Prod.snd).sum ≤ nonNullCount c ∧
      (analyzeCategoricalCol c).unique_values = (dropnaStr c).toFinset.card ∧
      (analyzeCategoricalCol c).labels.length ≤ (analyzeCategoricalCol c).unique_values := by
  have hnn : (dropnaStr c).length = nonNullCount c :=
    filterMap_strCell_length c.cells (ht hcat)
  have hrank : (rankedValues (dropnaStr c)).Perm (firstSeen (dropnaStr c)) :=
    List.perm_insertionSort _ _
  refine ⟨?_, ?_, ?_, ?_⟩
  · simp only [analyze]
    refine List.mem_map_of_mem _ (List.mem_filter.mpr ⟨hc, ?_⟩)
    rw [hcat]
    rfl
  · show ((value_counts (dropnaStr c)).map Prod.snd).sum ≤ _
    rw [value_counts, List.map_map]
    have hsum : ((rankedValues (dropnaStr c)).map
        (fun k => (dropnaStr c).count k)).sum = nonNullCount c := by
      rw [(hrank.map _).sum_eq, sum_counts_firstSeen, hnn]
    calc (((rankedValues (dropnaStr c)).take 10).map
            (Prod.snd ∘ fun k => (k, (dropnaStr c).count k))).sum
        = (((rankedValues (dropnaStr c)).take 10).map
            (fun k => (dropnaStr c).count k)).sum := rfl
      _ ≤ ((rankedValues (dropnaStr c)).map (fun k => (dropnaStr c).count k)).sum := by
          conv_rhs => rw [← List.take_append_drop 10 (rankedValues (dropnaStr c))]
          rw [List.map_append, List.sum_append]
          exact Nat.le_add_right _ _
      _ = nonNullCount c := hsum
  · show (firstSeen (dropnaStr c)).length = _
    rw [← List.toFinset_card_of_nodup (firstSeen_nodup _)]
    congr 1
    apply Finset.ext
    intro a
    rw [List.mem_toFinset, List.mem_toFinset, mem_firstSeen]
  · show ((value_counts (dropnaStr c)).map Prod.fst).length ≤
      (firstSeen (dropnaStr c)).length
    rw [value_counts, List.map_map, List.length_map, List.length_take]
    rw [← hrank.length_eq]
    exact Nat.min_le_right _ _

/-- Witness for C7 at the example frame and `dept` column. -/
theorem C7_categorical_caps_witness :
    deptCol ∈ exampleFrame.cols ∧ deptCol.dtype.isNumeric = false ∧
      (deptCol.dtype.isNumeric = false →
        ∀ x ∈ deptCol.cells, x = Cell.null ∨ ∃ s, x = Cell.str s) ∧
      (((analyzeCategoricalCol deptCol).value_counts.map Prod.snd).sum ≤
          nonNullCount deptCol ∧
        (analyzeCategoricalCol deptCol).unique_values = (dropnaStr deptCol).toFinset.card ∧
        (analyzeCategoricalCol deptCol).labels.length ≤
          (analyzeCategoricalCol deptCol).unique_values) :=
  ⟨by decide, rfl, by intro h x hx; fin_cases hx <;> exact Or.inr ⟨_, rfl⟩,
   (C7_categorical_caps exampleFrame deptCol (by decide) rfl
     (by intro h x hx; fin_cases hx <;> exact Or.inr ⟨_, rfl⟩)).2⟩

theorem sum_map_range_eq (g : ℕ → ℕ) (n : ℕ) :
    ((List.range n).map g).sum = ∑ i in Finset.range n, g i := by
  induction n with
  | zero => rfl
  | succ m ih =>
    rw [List.range_succ, List.map_append, List.sum_append, Finset.sum_range_succ, ih]
    simp

/-- Every value lands in exactly one bin, so the bin counts partition the
list. -/
theorem sum_countP_eq_length (f : ℚ → ℕ) (n : ℕ) (hf : ∀ x, f x < n) (l : List ℚ) :
    ((List.range n).map (fun i => l.countP (fun x => f x == i))).sum = l.length := by
  rw [sum_map_range_eq]
  induction l with
  | nil => simp
  | cons a t ih =>
    calc ∑ i in Finset.range n, (a :: t).countP (fun x => f x == i)
        = ∑ i in Finset.range n,
            (t.countP (fun x => f x == i) + if f a == i then 1 else 0) := by
          refine Finset.sum_congr rfl ?_
          intro i _
          rw [List.countP_cons]
      _ = (∑ i in Finset.range n, t.countP (fun x => f x == i))
            + ∑ i in Finset.range n, (if f a == i then 1 else 0) :=
          Finset.sum_add_distrib
      _ = t.length + 1 := by
          rw [ih]
          congr 1
          have hcongr : ∀ i ∈ Finset.range n,
              (if f a == i then 1 else 0) = if f a = i then 1 else 0 := by
            intro i _
            simp [beq_iff_eq]
          rw [Finset.sum_congr rfl hcongr,
            Finset.sum_ite_eq (Finset.range n) (f a) (fun _ => 1)]
          simp [Finset.mem_range.mpr (hf a)]
      _ = (a :: t).length := by simp

/-- C1: for a table with at least one row, the ten histogram counts of any
numeric column sum to exactly the number of non-null cells of that
column. -/
theorem C1_histogram_sum (df : DataFrame) (c : Col) (hc : c ∈ df.cols)
    (hnum : c.dtype.isNumeric = true) (ht : c.typed) (hrows : 1 ≤ df.nrows) :
    (c.name, analyzeNumericCol c) ∈ (analyze df).numeric_stats ∧
      (analyzeNumericCol c).histogram_values.sum = nonNullCount c := by
  constructor
  · simp only [analyze]
    exact List.mem_map_of_mem _ (List.mem_filter.mpr ⟨hc, hnum⟩)
  · have hs := sum_countP_eq_length
      (binIdx (histRange (dropna c)).1 (histRange (dropna c)).2) 10
      (fun x => Nat.lt_succ_of_le (min_le_right _ 9)) (dropna c)
    calc (analyzeNumericCol c).histogram_values.sum
        = (dropna c).length := hs
      _ = nonNullCount c := filterMap_numCell_length c.cells (ht hnum)

/-- Witness for C1 at the example frame and its `age` column. -/
theorem C1_histogram_sum_witness :
    ageCol ∈ exampleFrame.cols ∧ ageCol.dtype.isNumeric = true ∧
      (ageCol.dtype.isNumeric = true →
        ∀ x ∈ ageCol.cells, x = Cell.null ∨ ∃ q, x = Cell.num q) ∧
      1 ≤ exampleFrame.nrows ∧
      (analyzeNumericCol ageCol).histogram_values.sum = nonNullCount ageCol :=
  ⟨by decide, rfl,
   by intro h x hx; fin_cases hx <;> first | exact Or.inl rfl | exact Or.inr ⟨_, rfl⟩,
   by decide,
   (C1_histogram_sum exampleFrame ageCol (by decide) rfl
     (by intro h x hx; fin_cases hx <;> first | exact Or.inl rfl | exact Or.inr ⟨_, rfl⟩)
     (by decide)).2⟩

/-- The categorical summary of the example column
`dept = ["A","B","A","A","C"]`. -/
theorem analyzeCategoricalCol_example :
    analyzeCategoricalCol deptCol =
      ⟨[("A", 3), ("B", 1), ("C", 1)], 3, ["A", "B", "C"], [3, 1, 1]⟩ := by
  decide

/-- C3: the categorical labels and counts are the top ten distinct
non-null values ranked by descending occurrence count with ties kept in
first-encountered order: the ranked list is a permutation of the distinct
values in first-seen order, its count sequence is descending, any
first-seen-ordered pair whose counts do not increase keeps its order
(stability: for equal counts the first-seen value stays first), and the
example column `dept = ["A","B","A","A","C"]` yields labels
`["A","B","C"]`, values `[3,1,1]` and three unique values. -/
theorem C3_categorical_ranking (df : DataFrame) (c : Col) (hc : c ∈ df.cols)
    (hcat : c.dtype.isNumeric = false) :
    (c.name, analyzeCategoricalCol c) ∈ (analyze df).categorical_stats ∧
      (analyzeCategoricalCol c).labels = (rankedValues (dropnaStr c)).take 10 ∧
      (analyzeCategoricalCol c).values
        = ((rankedValues (dropnaStr c)).take 10).map (fun k => (dropnaStr c).count k) ∧
      (rankedValues (dropnaStr c)).Perm (firstSeen (dropnaStr c)) ∧
      ((rankedValues (dropnaStr c)).map (fun k => (dropnaStr c).count k)).Sorted (· ≥ ·) ∧
      (∀ a b, [a, b].Sublist (firstSeen (dropnaStr c)) →
        (dropnaStr c).count b ≤ (dropnaStr c).count a →
        [a, b].Sublist (rankedValues (dropnaStr c))) ∧
      analyzeCategoricalCol deptCol =
        ⟨[("A", 3), ("B", 1), ("C", 1)], 3, ["A", "B", "C"], [3, 1, 1]⟩ := by
  refine ⟨?_, ?_, ?_, List.perm_insertionSort _ _, ?_, ?_, analyzeCategoricalCol_example⟩
  · simp only [analyze]
    refine List.mem_map_of_mem _ (List.mem_filter.mpr ⟨hc, ?_⟩)
    rw [hcat]
    rfl
  · show (((rankedValues (dropnaStr c)).take 10).map
        (fun k => (k, (dropnaStr c).count k))).map Prod.fst = _
    rw [List.map_map,
      show (Prod.fst ∘ fun k => (k, (dropnaStr c).count k)) = id from rfl,
      List.map_id]
  · show (((rankedValues (dropnaStr c)).take 10).map
        (fun k => (k, (dropnaStr c).count k))).map Prod.snd = _
    rw [List.map_map]
    rfl
  · have hsorted : (rankedValues (dropnaStr c)).Sorted (byCountDesc (dropnaStr c)) :=
      List.sorted_insertionSort _ _
    exact List.Pairwise.map _ (fun a b h => h) hsorted
  · intro a b hsub hcount
    exact List.pair_sublist_insertionSort hcount hsub

/-- Witness for C3 at the example frame and its `dept` column. -/
theorem C3_categorical_ranking_witness :
    deptCol ∈ exampleFrame.cols ∧ deptCol.dtype.isNumeric = false ∧
      analyzeCategoricalCol deptCol =
        ⟨[("A", 3), ("B", 1), ("C", 1)], 3, ["A", "B", "C"], [3, 1, 1]⟩ :=
  ⟨by decide, rfl,
   (C3_categorical_ranking exampleFrame deptCol (by decide) rfl).2.2.2.2.2.2⟩


theorem histEdges_length (lo hi : ℚ) : (histEdges lo hi).length = 11 := by
  rw [histEdges, List.length_map, List.length_range]

theorem histCounts_length (lo hi : ℚ) (l : List ℚ) :
    (histCounts lo hi l).length = 10 := by
  simp [histCounts]

theorem histEdges_getElem (lo hi : ℚ) (i : ℕ) (h : i < 11) :
    (histEdges lo hi)[i]? = some (lo + i * ((hi - lo) / 10)) := by
  rw [histEdges, List.getElem?_map, List.getElem?_range h]
  rfl

theorem histCounts_getElem (lo hi : ℚ) (l : List ℚ) (i : ℕ) (h : i < 10) :
    (histCounts lo hi l)[i]? = some (l.countP (fun x => binIdx lo hi x == i)) := by
  rw [histCounts, List.getElem?_map, List.getElem?_range h]
  rfl

theorem histRange_spec (l : List ℚ) (hne : l ≠ []) (m M : ℚ)
    (hm : listMin l = some m) (hM : listMax l = some M) :
    histRange l = if m = M then (m - 1 / 2, M + 1 / 2) else (m, M) := by
  cases l with
  | nil => exact absurd rfl hne
  | cons x xs =>
    have h1 : xs.foldl min x = m := by simpa [listMin] using hm
    have h2 : xs.foldl max x = M := by simpa [listMax] using hM
    simp only [histRange, h1, h2]

/-- For a bin index up to 8, a value falls in that bin iff it lies in the
half-open interval between the two surrounding edges. -/
theorem binIdx_eq_iff_le8 (lo hi : ℚ) (hlt : lo < hi) (x : ℚ) (hx : lo ≤ x)
    (i : ℕ) (hi8 : i ≤ 8) :
    binIdx lo hi x = i ↔
      (lo + i * ((hi - lo) / 10) ≤ x ∧ x < lo + (i + 1) * ((hi - lo) / 10)) := by
  have hd : (0 : ℚ) < hi - lo := by linarith
  have ht0 : 0 ≤ (x - lo) * 10 / (hi - lo) := div_nonneg (by nlinarith) hd.le
  have hf0 : 0 ≤ ⌊(x - lo) * 10 / (hi - lo)⌋ := Int.floor_nonneg.mpr ht0
  rw [binIdx]
  constructor
  · intro h
    have h1 : Int.toNat ⌊(x - lo) * 10 / (hi - lo)⌋ = i := by
      rw [Nat.min_def] at h
      split_ifs at h <;> omega
    have h2 : ⌊(x - lo) * 10 / (hi - lo)⌋ = (i : ℤ) := by omega
    obtain ⟨hl, hr⟩ := Int.floor_eq_iff.mp h2
    push_cast at hl hr
    rw [le_div_iff₀ hd] at hl
    rw [div_lt_iff₀ hd] at hr
    constructor
    · nlinarith
    · nlinarith
  · rintro ⟨h1, h2⟩
    have hub : (i : ℚ) ≤ (x - lo) * 10 / (hi - lo) := by
      rw [le_div_iff₀ hd]
      nlinarith
    have hlb : (x - lo) * 10 / (hi - lo) < (i : ℚ) + 1 := by
      rw [div_lt_iff₀ hd]
      nlinarith
    have hfl : ⌊(x - lo) * 10 / (hi - lo)⌋ = (i : ℤ) :=
      Int.floor_eq_iff.mpr ⟨by push_cast; linarith, by push_cast; linarith⟩
    rw [hfl]
    rw [Nat.min_def]
    split_ifs <;> omega

/-- A value falls in the last bin iff it lies in the closed interval
between the last two edges (the last bin is closed on both ends). -/
theorem binIdx_eq_nine_iff (lo hi : ℚ) (hlt : lo < hi) (x : ℚ) (hx : lo ≤ x)
    (hxhi : x ≤ hi) :
    binIdx lo hi x = 9 ↔
      (lo + 9 * ((hi - lo) / 10) ≤ x ∧ x ≤ lo + 10 * ((hi - lo) / 10)) := by
  have hd : (0 : ℚ) < hi - lo := by linarith
  have h10 : lo + 10 * ((hi - lo) / 10) = hi := by ring
  rw [binIdx]
  constructor
  · intro h
    have h9 : 9 ≤ Int.toNat ⌊(x - lo) * 10 / (hi - lo)⌋ := by
      rw [Nat.min_def] at h
      split_ifs at h <;> omega
    have h9i : (9 : ℤ) ≤ ⌊(x - lo) * 10 / (hi - lo)⌋ := by omega
    have h9q : (9 : ℚ) ≤ (x - lo) * 10 / (hi - lo) := by
      have hc := Int.le_floor.mp h9i
      push_cast at hc
      exact hc
    rw [le_div_iff₀ hd] at h9q
    refine ⟨by nlinarith, by rw [h10]; exact hxhi⟩
  · rintro ⟨h1, -⟩
    have h2 : (9 : ℚ) ≤ (x - lo) * 10 / (hi - lo) := by
      rw [le_div_iff₀ hd]
      nlinarith
    have h3 : (9 : ℤ) ≤ ⌊(x - lo) * 10 / (hi - lo)⌋ :=
      Int.le_floor.mpr (by push_cast; linarith)
    rw [Nat.min_def]
    split_ifs <;> omega

theorem histCounts_char_le8 (lo hi : ℚ) (hlt : lo < hi) (l : List ℚ)
    (hmem : ∀ x ∈ l, lo ≤ x) (i : ℕ) (hi8 : i ≤ 8) :
    l.countP (fun x => binIdx lo hi x == i)
      = l.countP (fun x =>
          decide (lo + i * ((hi - lo) / 10) ≤ x ∧ x < lo + (i + 1) * ((hi - lo) / 10))) := by
  apply List.countP_congr
  intro x hx
  simp only [beq_iff_eq, decide_eq_true_eq]
  exact binIdx_eq_iff_le8 lo hi hlt x (hmem x hx) i hi8

theorem histCounts_char_nine (lo hi : ℚ) (hlt : lo < hi) (l : List ℚ)
    (hmem : ∀ x ∈ l, lo ≤ x ∧ x ≤ hi) :
    l.countP (fun x => binIdx lo hi x == 9)
      = l.countP (fun x =>
          decide (lo + 9 * ((hi - lo) / 10) ≤ x ∧ x ≤ lo + 10 * ((hi - lo) / 10))) := by
  apply List.countP_congr
  intro x hx
  simp only [beq_iff_eq, decide_eq_true_eq]
  exact binIdx_eq_nine_iff lo hi hlt x (hmem x hx).1 (hmem x hx).2

/-- C4 counterexample: for the one-row numeric column holding the single
value 5 (min = max = 5), numpy widens the histogram range, so the first
bin edge is 4.5 and the bins do not span `[min, max]` as claimed. -/
theorem C4_bins_span_cex :
    (analyzeNumericCol constCol).min = some 5 ∧
      (analyzeNumericCol constCol).max = some 5 ∧
      (analyzeNumericCol constCol).histogram_bins[0]? = some (9 / 2) ∧
      ((9 : ℚ) / 2) ≠ 5 := by
  have hr : histRange [(5 : ℚ)] = (5 - 1 / 2, 5 + 1 / 2) := by
    simp [histRange]
  refine ⟨rfl, rfl, ?_, by norm_num⟩
  show (histEdges (histRange (dropna constCol)).1 (histRange (dropna constCol)).2)[0]? = _
  have hd : dropna constCol = [(5 : ℚ)] := rfl
  rw [hd, hr]
  rw [histEdges_getElem _ _ 0 (by norm_num)]
  norm_num

/-- C4 amended: for a numeric column with at least one non-null value, the
report carries exactly 11 bin edges and 10 bin counts; consecutive edges
increase by one fixed positive width; the edges run from `min` to `max`
when `min < max` but from `min - 1/2` to `max + 1/2` when `min = max`
(numpy widens a degenerate range); bin `i < 9` counts the values in
`[edge i, edge (i+1))` and the last bin counts the values in
`[edge 9, edge 10]`, closed so that it includes the maximum. -/
theorem C4_histogram_bins_amended (df : DataFrame) (c : Col) (hc : c ∈ df.cols)
    (hnum : c.dtype.isNumeric = true) (hne : dropna c ≠ []) :
    (c.name, analyzeNumericCol c) ∈ (analyze df).numeric_stats ∧
      (analyzeNumericCol c).histogram_bins.length = 11 ∧
      (analyzeNumericCol c).histogram_values.length = 10 ∧
      (∀ m M, listMin (dropna c) = some m → listMax (dropna c) = some M →
        (m < M → (analyzeNumericCol c).histogram_bins[0]? = some m ∧
          (analyzeNumericCol c).histogram_bins[10]? = some M) ∧
        (m = M → (analyzeNumericCol c).histogram_bins[0]? = some (m - 1 / 2) ∧
          (analyzeNumericCol c).histogram_bins[10]? = some (M + 1 / 2))) ∧
      (∃ w : ℚ, 0 < w ∧ ∀ i, i < 10 → ∀ e₁ e₂,
        (analyzeNumericCol c).histogram_bins[i]? = some e₁ →
        (analyzeNumericCol c).histogram_bins[i + 1]? = some e₂ → e₂ = e₁ + w) ∧
      (∀ i, i ≤ 8 → ∀ e₁ e₂,
        (analyzeNumericCol c).histogram_bins[i]? = some e₁ →
        (analyzeNumericCol c).histogram_bins[i + 1]? = some e₂ →
        (analyzeNumericCol c).histogram_values[i]? =
          some ((dropna c).countP (fun x => decide (e₁ ≤ x ∧ x < e₂)))) ∧
      (∀ e₁ e₂,
        (analyzeNumericCol c).histogram_bins[9]? = some e₁ →
        (analyzeNumericCol c).histogram_bins[10]? = some e₂ →
        (analyzeNumericCol c).histogram_values[9]? =
          some ((dropna c).countP (fun x => decide (e₁ ≤ x ∧ x ≤ e₂)))) := by
  obtain ⟨m, hm, hmmem, hmle⟩ := listMin_spec (dropna c) hne
  obtain ⟨M, hM, hMmem, hMle⟩ := listMax_spec (dropna c) hne
  have hmM : m ≤ M := hMle m hmmem
  have hrange := histRange_spec (dropna c) hne m M hm hM
  have hkey : ∃ lo hi, histRange (dropna c) = (lo, hi) ∧ lo < hi ∧
      (∀ x ∈ dropna c, lo ≤ x ∧ x ≤ hi) ∧
      (m < M → lo = m ∧ hi = M) ∧ (m = M → lo = m - 1 / 2 ∧ hi = M + 1 / 2) := by
    by_cases hcase : m = M
    · refine ⟨m - 1 / 2, M + 1 / 2, ?_, by linarith, ?_, ?_, fun _ => ⟨rfl, rfl⟩⟩
      · rw [hrange, if_pos hcase]
      · intro x hx
        exact ⟨by linarith [hmle x hx], by linarith [hMle x hx]⟩
      · intro hltmM
        exact absurd hcase (ne_of_lt hltmM)
    · have hlt : m < M := lt_of_le_of_ne hmM hcase
      refine ⟨m, M, ?_, hlt, ?_, fun _ => ⟨rfl, rfl⟩, fun h => absurd h hcase⟩
      · rw [hrange, if_neg hcase]
      · intro x hx
        exact ⟨hmle x hx, hMle x hx⟩
  obtain ⟨lo, hi, hrpair, hlt, hbounds, hspanlt, hspaneq⟩ := hkey
  have hbins2 : (analyzeNumericCol c).histogram_bins = histEdges lo hi := by
    show histEdges (histRange (dropna c)).1 (histRange (dropna c)).2 = histEdges lo hi
    rw [hrpair]
  have hvals2 : (analyzeNumericCol c).histogram_values
      = histCounts lo hi (dropna c) := by
    show histCounts (histRange (dropna c)).1 (histRange (dropna c)).2 (dropna c) = _
    rw [hrpair]
  refine ⟨?_, ?_, ?_, ?_, ?_, ?_, ?_⟩
  · simp only [analyze]
    exact List.mem_map_of_mem _ (List.mem_filter.mpr ⟨hc, hnum⟩)
  · rw [hbins2]
    exact histEdges_length lo hi
  · rw [hvals2]
    exact histCounts_length lo hi (dropna c)
  · intro m2 M2 hm2 hM2
    have hem : m2 = m := by
      rw [hm] at hm2
      exact (Option.some.inj hm2).symm
    have heM : M2 = M := by
      rw [hM] at hM2
      exact (Option.some.inj hM2).symm
    subst hem
    subst heM
    constructor
    · intro hltmM
      obtain ⟨hlo, hhi⟩ := hspanlt hltmM
      subst hlo
      subst hhi
      rw [hbins2]
      constructor
      · rw [histEdges_getElem _ _ 0 (by norm_num)]
        norm_num
      · rw [histEdges_getElem _ _ 10 (by norm_num)]
        congr 1
        ring
    · intro heqmM
      obtain ⟨hlo, hhi⟩ := hspaneq heqmM
      subst hlo
      subst hhi
      rw [hbins2]
      constructor
      · rw [histEdges_getElem _ _ 0 (by norm_num)]
        norm_num
      · rw [histEdges_getElem _ _ 10 (by norm_num)]
        congr 1
        ring
  · refine ⟨(hi - lo) / 10, div_pos (by linarith) (by norm_num), ?_⟩
    intro i hi10 e₁ e₂ h1 h2
    rw [hbins2, histEdges_getElem _ _ i (by omega)] at h1
    rw [hbins2, histEdges_getElem _ _ (i + 1) (by omega)] at h2
    have he1 : e₁ = lo + i * ((hi - lo) / 10) := (Option.some.inj h1).symm
    have he2 : e₂ = lo + ((i + 1 : ℕ) : ℚ) * ((hi - lo) / 10) := (Option.some.inj h2).symm
    rw [he1, he2]
    push_cast
    ring
  · intro i hi8 e₁ e₂ h1 h2
    rw [hbins2, histEdges_getElem _ _ i (by omega)] at h1
    rw [hbins2, histEdges_getElem _ _ (i + 1) (by omega)] at h2
    have he1 : e₁ = lo + i * ((hi - lo) / 10) := (Option.some.inj h1).symm
    have he2 : e₂ = lo + ((i + 1 : ℕ) : ℚ) * ((hi - lo) / 10) := (Option.some.inj h2).symm
    subst he1
    subst he2
    rw [hvals2, histCounts_getElem _ _ _ i (by omega)]
    rw [histCounts_char_le8 lo hi hlt (dropna c) (fun x hx => (hbounds x hx).1) i hi8]
    push_cast
    try rfl
  · intro e₁ e₂ h1 h2
    rw [hbins2, histEdges_getElem _ _ 9 (by norm_num)] at h1
    rw [hbins2, histEdges_getElem _ _ 10 (by norm_num)] at h2
    have he1 : e₁ = lo + 9 * ((hi - lo) / 10) := (Option.some.inj h1).symm
    have he2 : e₂ = lo + 10 * ((hi - lo) / 10) := (Option.some.inj h2).symm
    subst he1
    subst he2
    rw [hvals2, histCounts_getElem _ _ _ 9 (by norm_num)]
    rw [histCounts_char_nine lo hi hlt (dropna c) hbounds]
    try push_cast
    try rfl

/-- Witness for the amended C4 at the example frame and its `age`
column. -/
theorem C4_histogram_bins_amended_witness :
    ageCol ∈ exampleFrame.cols ∧ ageCol.dtype.isNumeric = true ∧ dropna ageCol ≠ [] ∧
      ((analyzeNumericCol ageCol).histogram_bins.length = 11 ∧
        (analyzeNumericCol ageCol).histogram_values.length = 10) :=
  ⟨by decide, rfl, by decide,
   ⟨(C4_histogram_bins_amended exampleFrame ageCol (by decide) rfl (by decide)).2.1,
    (C4_histogram_bins_amended exampleFrame ageCol (by decide) rfl (by decide)).2.2.1⟩⟩

end EDA
